import Mathlib

/-!
Shallow embedding of `env.py` (`PytorchAdversarialEnv`) from the
PyTorchAdversarialGym repository, together with theorems checking the
natural-language specification against it.

Modelling conventions:
* Python attribute errors, type errors and `gym.error.Error` become values of
  `PyErr`; fallible code returns `Except PyErr`.
* The external collaborators (`torch`, `gym`) and the repository modules that
  are not part of the provided source (`space.TensorBox`, `util.UniformSampler`,
  and the `DataLoader` batch-iterator behaviour) are modelled from the spec;
  each such definition carries a doc comment saying so.
* Batches are identified by their position in the iterator sequence; device
  placement (`.cuda()` on tensors already held) is a no-op on the modelled
  state.
* Tensor contents are real numbers; the float arithmetic of `torch.norm` is
  idealised over `ℝ`.
-/

/-- Python values that can be passed as the `seed` argument of `_seed`
(env.py line 93).  Python `bool` is an `int` subclass, so it is covered by the
`int` case; `float` carries a rational stand-in for its value. -/
inductive PyValue where
  | none
  | int (n : ℤ)
  | float (x : ℚ)
  | str (s : String)
deriving DecidableEq

/-- `type(v)` as displayed in error messages. -/
def pyTypeName : PyValue → String
  | PyValue.none => "NoneType"
  | PyValue.int _ => "int"
  | PyValue.float _ => "float"
  | PyValue.str _ => "str"

/-- `isinstance(seed, integer_types)` with `integer_types = (int,)`
(env.py lines 94-95). -/
def isIntInstance : PyValue → Bool
  | PyValue.int _ => true
  | _ => false

/-- The integer carried by a `PyValue.int`; junk value elsewhere (only read
after `isIntInstance` succeeded, as in the source). -/
def intVal : PyValue → ℤ
  | PyValue.int n => n
  | _ => 0

/-- Errors that the embedded code can raise.  `gymSeedError` is the
`gym.error.Error` of `_seed` (line 96); `gymConfigError` is the
`gym.error.Error` of the three capability checks (lines 57, 61, 65), whose
message names the offending object type and the expected capability. -/
inductive PyErr where
  | attributeError (obj attr : String)
  | typeError (msg : String)
  | zeroDivisionError
  | stopIteration
  | gymSeedError (offendingTypeName : String)
  | gymConfigError (offendingTypeName expectedCapability : String)
deriving DecidableEq

/-- The torch random generator handle stored as `self.torch_rng`
(line 97): either the stream re-initialised by `torch.manual_seed(seed)` or
`torch.default_generator`. -/
inductive TorchRng where
  | manualSeed (n : ℤ)
  | defaultGenerator
deriving DecidableEq

/-- `_seed` (env.py lines 93-99): rejects anything that is neither `None` nor
a non-negative `int`, re-initialises the random stream on an accepted integer
seed, stores and returns the seed wrapped in a single-element list. -/
def envSeed (seed : PyValue) : Except PyErr (TorchRng × List PyValue) :=
  if seed ≠ PyValue.none ∧ ¬(isIntInstance seed = true ∧ 0 ≤ intVal seed) then
    Except.error (PyErr.gymSeedError (pyTypeName seed))
  else
    Except.ok
      (if seed = PyValue.none then TorchRng.defaultGenerator
       else TorchRng.manualSeed (intVal seed), [seed])

/-- A tensor-like Python object as far as construction inspects it: whether it
exposes a `.size()` method, the shape that method reports, and whether it is a
`torch.FloatTensor` (or `torch.cuda.FloatTensor`). -/
structure PyTensor where
  hasSize : Bool
  shape : List ℕ
  isFloatTensor : Bool
deriving DecidableEq

/-- A dataset item `dataset[i]`; construction only ever looks at its first
component `dataset[i][0]`, the input tensor. -/
structure DatasetItem where
  input : PyTensor
deriving DecidableEq

/-- The dataset collaborator: its runtime type name, whether it subclasses
`torch.utils.data.Dataset`, whether indexing it works at all, its `len`, and
its items. -/
structure PyDataset where
  typeName : String
  isDatasetSubclass : Bool
  indexable : Bool
  size : ℕ
  items : ℕ → DatasetItem

/-- The model collaborator: runtime type name, whether it subclasses
`torch.nn.Module`, and whether it exposes the `.cpu()` / `.cuda()` placement
methods accessed at line 47 (every `nn.Module` does; other objects may not). -/
structure PyModel where
  typeName : String
  isNNModule : Bool
  hasCpuCuda : Bool
deriving DecidableEq

/-- The sampler collaborator: runtime type name, whether it subclasses
`torch.utils.data.sampler.Sampler`, the length it declares, and whether the
object is *falsy* under Python truthiness - `not sampler` is `True` for it.
For a `Sampler` subclass, or any other object with `__len__` such as a list,
falsy means its length is zero; objects defining neither `__len__` nor
`__bool__` are never falsy. -/
structure PySampler where
  typeName : String
  isSamplerSubclass : Bool
  declaredSize : ℕ
  falsy : Bool
deriving DecidableEq

/-- Modelled from the spec: `TensorBox(low, high, shape)` from the repository
`space` module (imported at env.py line 9 but not under src/) is a bounded
tensor box recording elementwise lower and upper bounds and a fixed shape
(spec section 6: "bounded tensor space (elementwise bounds [0,1], fixed shape
(batch_size, *instance_shape))"). -/
structure TensorBox where
  low : ℕ
  high : ℕ
  shape : List ℕ
deriving DecidableEq

/-- The arguments of `PytorchAdversarialEnv.__init__` (env.py lines 40-41),
with the source defaults.  `episode_length` is `Option ℕ`: `Option.none` is
Python `None`, `Option.some 0` is an explicit `0` (both falsy at line 53). -/
structure EnvConfig where
  target_model : PyModel
  dataset : PyDataset
  norm : Option ℚ := Option.none
  batch_size : ℕ := 1
  episode_length : Option ℕ := Option.none
  sampler : Option PySampler := Option.none
  num_workers : ℕ := 0
  use_cuda : Bool := false
  seed : PyValue := PyValue.none

/-- Modelled from the spec: `UniformSampler(dataset, rng, n)` from the
repository `util` module (imported at env.py line 10 but not under src/) is
the default uniform-with-replacement sampling policy (spec section 4.1); it is
a `Sampler` subclass with the index-sequence-with-known-length capability, and
its declared size is the length argument it is constructed with, which at
line 54 is `len(self.dataset)`. -/
def uniformSampler (n : ℕ) : PySampler :=
  { typeName := "UniformSampler", isSamplerSubclass := true, declaredSize := n,
    falsy := n == 0 }

/-- Modelled from the spec: the batch iterator obtained from
`DataLoader(dataset, batch_size, sampler, num_workers)` (external torch
collaborator, env.py lines 71-72) produces "a lazy, finite sequence of Batches
whose length equals the sampler's declared size divided by batch_size (floor)"
(spec section 4.3). -/
def loaderNumBatches (samplerSize batch_size : ℕ) : ℕ :=
  samplerSize / batch_size

/-- Modelled from the spec: each batch collated by the loader stacks
`batch_size` dataset instances, so its input tensor has shape
`batch_size :: instance-shape` (spec sections 3 and 6); instances have a fixed
shape, read off the item at index 0. -/
def loaderBatchShape (d : PyDataset) (batch_size : ℕ) : List ℕ :=
  batch_size :: (d.items 0).input.shape

/-- `_check_model` (env.py lines 121-122). -/
def checkModel (m : PyModel) : Bool := m.isNNModule

/-- `_check_dataset` (env.py lines 124-125): `isinstance(self.dataset,
Dataset)` and then `isinstance(self.dataset[0][0], torch.FloatTensor)` or
`isinstance(self.dataset[0][0], torch.cuda.FloatTensor)` - only the item at
index 0 is consulted. -/
def checkDataset (d : PyDataset) : Bool :=
  d.isDatasetSubclass && (d.items 0).input.isFloatTensor

/-- `_check_sampler` (env.py lines 127-128). -/
def checkSampler (s : PySampler) : Bool := s.isSamplerSubclass

/-- The configuration error of line 57: names `type(self.dataset)` and the
expected capability. -/
def datasetErr (ty : String) : PyErr :=
  PyErr.gymConfigError ty "subclass of torch.utils.data.Dataset containing FloatTensors"

/-- The configuration error of line 61: names `type(self.target_model)` and
the expected capability. -/
def modelErr (ty : String) : PyErr :=
  PyErr.gymConfigError ty "subclass of torch.nn.Module"

/-- The configuration error of line 65: names `type(self.sampler)` and the
expected capability. -/
def samplerErr (ty : String) : PyErr :=
  PyErr.gymConfigError ty "subclass of torch.utils.data.sampler.Sampler"

/-- Python truthiness of the `episode_length` argument at line 53: `None` and
`0` are both falsy. -/
def pyFalsy : Option ℕ → Bool
  | Option.none => true
  | Option.some n => n == 0

/-- The attribute names the external `torch` module exposes among those this
code touches.  PyTorch spells the CUDNN switch `torch.backends.cudnn`
(plural); the name `torch.backend` used at env.py line 45 does not exist. -/
def torchModuleAttrs : List String :=
  ["backends", "nn", "autograd", "utils", "cuda",
   "manual_seed", "default_generator", "norm", "FloatTensor"]

/-- `getattr(torch, a)` succeeds exactly when `a` is an existing attribute. -/
def torchHasAttr (a : String) : Bool := torchModuleAttrs.contains a

/-- The state of a constructed environment.  Batches are identified by their
position in the iterator sequence: `nbatches` is how many batches the current
iterator yields in total, `nextIdx` is the position the next `__next__` call
would return, `successorIdx` is the buffered successor (`self.successor`),
`ix` is `self.ix` and `done` is `self.done`. -/
structure EnvState where
  use_cuda : Bool
  seedey : List PyValue
  torch_rng : TorchRng
  dataset : PyDataset
  action_space : TensorBox
  observation_space : TensorBox
  episode_length : ℕ
  sampler : PySampler
  batch_size : ℕ
  norm : Option ℚ
  num_workers : ℕ
  nbatches : ℕ
  nextIdx : ℕ
  successorIdx : ℕ
  ix : ℕ
  done : Bool

/-- `_reset` (env.py lines 101-110): rebuilds the loader and its iterator,
draws the first batch as the buffered successor (an uncaught `StopIteration`
escapes if the fresh iterator is empty), places it on the device (a no-op on
the modelled state), sets `done = False` and `ix = 0`, and returns the
successor. -/
def resetEnv (e : EnvState) : Except PyErr (EnvState × ℕ) :=
  let nb := loaderNumBatches e.sampler.declaredSize e.batch_size
  if nb = 0 then Except.error PyErr.stopIteration
  else
    Except.ok
      ({ e with nbatches := nb, nextIdx := 1, successorIdx := 0,
                done := false, ix := 0 }, 0)

/-- What one `_step` call communicates outward: the observation it returns
(`self.successor` after the call) and the `current_obs` it hands to
`_get_reward`, both as batch positions, plus the returned `done` flag. -/
structure StepReturn where
  obs : ℕ
  rewardObs : ℕ
  done : Bool
deriving DecidableEq

/-- `_step` (env.py lines 75-91).  In the `try` block `current_obs` is first
aliased to the buffered successor; the iterator draw then either succeeds
(successor and `ix` advance, and `StopIteration` is raised and caught if the
new `ix` reached `episode_length`) or raises `StopIteration` itself, caught
with `successor` and `ix` untouched.  Either way `_get_reward` is then invoked
on `current_obs` (abstract in the source, line 112: concrete subclasses
override it; `rewardObs` records the observation handed to it) and
`self.successor` is returned. -/
def stepEnv (e : EnvState) : EnvState × StepReturn :=
  if e.nextIdx < e.nbatches then
    let e1 := { e with successorIdx := e.nextIdx, nextIdx := e.nextIdx + 1,
                       ix := e.ix + 1 }
    let e2 := if e.episode_length ≤ e1.ix then { e1 with done := true } else e1
    (e2, { obs := e1.successorIdx, rewardObs := e.successorIdx, done := e2.done })
  else
    ({ e with done := true },
     { obs := e.successorIdx, rewardObs := e.successorIdx, done := true })

/-- The environment state after `k` successive `_step` calls. -/
def stepsFrom (e : EnvState) : ℕ → EnvState
  | 0 => e
  | k + 1 => (stepEnv (stepsFrom e k)).1

/-- Python truthiness of the `sampler` argument, as tested by `if not sampler`
at line 54: `None` is falsy, and any other object is falsy exactly when its
own truthiness says so (`PySampler.falsy`). -/
def samplerFalsy : Option PySampler → Bool
  | Option.none => true
  | Option.some s => s.falsy

/-- The sampler actually stored at line 54:
`UniformSampler(self.dataset, self.torch_rng, len(self.dataset)) if not
sampler else sampler`.  Note the Python-truthiness test: a *falsy* sampler
argument - `None`, but also e.g. an empty list or a zero-length sampler - is
silently replaced by the default; only a truthy argument is kept (the `getD`
default in the truthy branch is unreachable, since a truthy argument is not
`None`). -/
def samplerOf (cfg : EnvConfig) : PySampler :=
  if samplerFalsy cfg.sampler then uniformSampler cfg.dataset.size
  else cfg.sampler.getD (uniformSampler cfg.dataset.size)

/-- `__init__` (env.py lines 40-73) as a straight-line fallible computation,
in source order: the CUDNN disabling attempt (line 45, only when a seed is
given - note the source reads the nonexistent `torch.backend`), `_seed`
(line 46), model device placement (line 47), the `dataset[0][0].size()` read
(line 49), the space shape `(batch_size, *space_shape[1:])` and the two
`TensorBox` spaces (lines 50-52), the episode length default (line 53), the
sampler default (line 54), the three capability checks (lines 56-66), the
loader and iterator (lines 71-72), and the initial `_reset` (line 73). -/
def constructEnv (cfg : EnvConfig) : Except PyErr EnvState :=
  if cfg.seed ≠ PyValue.none ∧ torchHasAttr "backend" = false then
    Except.error (PyErr.attributeError "torch" "backend")
  else
    match envSeed cfg.seed with
    | Except.error err => Except.error err
    | Except.ok (rng, sd) =>
      if cfg.target_model.hasCpuCuda = false then
        Except.error (PyErr.attributeError cfg.target_model.typeName
          (if cfg.use_cuda then "cuda" else "cpu"))
      else if cfg.dataset.indexable = false then
        Except.error (PyErr.typeError
          (cfg.dataset.typeName ++ " object is not subscriptable"))
      else if (cfg.dataset.items 0).input.hasSize = false then
        Except.error (PyErr.attributeError "dataset item 0 input" "size")
      else if pyFalsy cfg.episode_length = true ∧ cfg.batch_size = 0 then
        Except.error PyErr.zeroDivisionError
      else
        let space_shape := cfg.batch_size :: (cfg.dataset.items 0).input.shape.tail
        let box : TensorBox := { low := 0, high := 1, shape := space_shape }
        let epLen := if pyFalsy cfg.episode_length then
                       cfg.dataset.size / cfg.batch_size
                     else cfg.episode_length.getD 0
        let smp := samplerOf cfg
        if checkDataset cfg.dataset = false then
          Except.error (datasetErr cfg.dataset.typeName)
        else if checkModel cfg.target_model = false then
          Except.error (modelErr cfg.target_model.typeName)
        else if checkSampler smp = false then
          Except.error (samplerErr smp.typeName)
        else
          let e0 : EnvState :=
            { use_cuda := cfg.use_cuda, seedey := sd, torch_rng := rng,
              dataset := cfg.dataset, action_space := box,
              observation_space := box, episode_length := epLen,
              sampler := smp, batch_size := cfg.batch_size, norm := cfg.norm,
              num_workers := cfg.num_workers, nbatches := 0, nextIdx := 0,
              successorIdx := 0, ix := 0, done := false }
          match resetEnv e0 with
          | Except.error err => Except.error err
          | Except.ok (e1, _) => Except.ok e1

/-- A well-behaved dataset: a `Dataset` subclass of four items whose inputs
are float tensors of per-instance shape `[3]`. -/
def goodDataset : PyDataset :=
  { typeName := "TensorDataset", isDatasetSubclass := true, indexable := true,
    size := 4,
    items := fun _ =>
      { input := { hasSize := true, shape := [3], isFloatTensor := true } } }

/-- A well-behaved target model: an `nn.Module` subclass. -/
def goodModel : PyModel :=
  { typeName := "Net", isNNModule := true, hasCpuCuda := true }

/-- A valid construction: defaults everywhere except `batch_size = 2`. -/
def cfgGood : EnvConfig :=
  { target_model := goodModel, dataset := goodDataset, batch_size := 2 }

/-- The environment state `constructEnv cfgGood` produces. -/
def envGood : EnvState :=
  { use_cuda := false, seedey := [PyValue.none],
    torch_rng := TorchRng.defaultGenerator, dataset := goodDataset,
    action_space := TensorBox.mk 0 1 [2],
    observation_space := TensorBox.mk 0 1 [2],
    episode_length := 2, sampler := uniformSampler 4, batch_size := 2,
    norm := Option.none, num_workers := 0,
    nbatches := 2, nextIdx := 1, successorIdx := 0, ix := 0, done := false }

/-- A mid-episode state (here even a finished one) for exercising `_reset`. -/
def envMidway : EnvState :=
  { envGood with ix := 5, done := true, nextIdx := 7, successorIdx := 6 }

/-- A running state whose iterator is exhausted: both batches drawn. -/
def envExhausted : EnvState :=
  { envGood with episode_length := 5, nextIdx := 2, successorIdx := 1, ix := 1 }

/-- A dataset whose item 0 is a float tensor but whose every other item is
not even a tensor. -/
def mixedDataset : PyDataset :=
  { typeName := "ListDataset", isDatasetSubclass := true, indexable := true,
    size := 3,
    items := fun n =>
      if n = 0 then { input := { hasSize := true, shape := [3], isFloatTensor := true } }
      else { input := { hasSize := false, shape := [], isFloatTensor := false } } }

/-- `cfgGood` with an explicit `episode_length = 0`. -/
def cfgZero : EnvConfig :=
  { target_model := goodModel, dataset := goodDataset, batch_size := 2,
    episode_length := Option.some 0 }

/-- Whether a construction outcome is the descriptive capability error
(a `gym.error.Error` naming the offending type and expected capability). -/
def isCapabilityError : Except PyErr EnvState → Bool
  | Except.error (PyErr.gymConfigError _ _) => true
  | _ => false

/-- A Python `int` used as the target model: not an `nn.Module`, and it
exposes neither `.cpu()` nor `.cuda()`. -/
def intModel : PyModel :=
  { typeName := "int", isNNModule := false, hasCpuCuda := false }

def cfgIntModel : EnvConfig :=
  { target_model := intModel, dataset := goodDataset, batch_size := 2 }

/-- The first capability error raised by lines 56-66, in source order. -/
def firstCapabilityError (cfg : EnvConfig) : PyErr :=
  if checkDataset cfg.dataset = false then datasetErr cfg.dataset.typeName
  else if checkModel cfg.target_model = false then modelErr cfg.target_model.typeName
  else samplerErr (samplerOf cfg).typeName

/-- A sampler argument that is a plain nonempty Python list (truthy, so it
survives line 54's `if not sampler` test), not a `Sampler`. -/
def notASampler : PySampler :=
  { typeName := "list", isSamplerSubclass := false, declaredSize := 4,
    falsy := false }

def cfgBadSampler : EnvConfig :=
  { target_model := goodModel, dataset := goodDataset, batch_size := 2,
    sampler := Option.some notASampler }

/-- A sampler argument that is an *empty* Python list: falsy, and not a
`Sampler`. -/
def emptyListSampler : PySampler :=
  { typeName := "list", isSamplerSubclass := false, declaredSize := 0,
    falsy := true }

def cfgEmptyListSampler : EnvConfig :=
  { target_model := goodModel, dataset := goodDataset, batch_size := 2,
    sampler := Option.some emptyListSampler }

/-- A CIFAR-style dataset: item inputs have per-instance shape (3, 32, 32). -/
def imageDataset : PyDataset :=
  { typeName := "CIFAR10", isDatasetSubclass := true, indexable := true,
    size := 8,
    items := fun _ =>
      { input := { hasSize := true, shape := [3, 32, 32], isFloatTensor := true } } }

def cfgImage : EnvConfig :=
  { target_model := goodModel, dataset := imageDataset, batch_size := 4 }

def cfgSeeded : EnvConfig :=
  { target_model := goodModel, dataset := goodDataset, batch_size := 2,
    seed := PyValue.int 0 }


/-- A torch tensor, shallow-embedded as a nested stack of real scalars.
Dimension 0 of a `stack` is its list of sub-tensors; a well-formed
(rectangular) tensor has all sub-tensors of one stack sharing a shape. -/
inductive Tensor where
  | scalar (x : ℝ)
  | stack (ts : List Tensor)

/-- Whether a tensor is 0-dimensional. -/
def Tensor.isScalar : Tensor → Bool
  | Tensor.scalar _ => true
  | Tensor.stack _ => false

/-- The value of a 0-dimensional tensor (junk on a stack). -/
noncomputable def Tensor.scalarVal : Tensor → ℝ
  | Tensor.scalar x => x
  | Tensor.stack _ => 0

mutual

/-- The shape `t.size()` of a (rectangular) tensor: empty for a scalar,
`length :: element-shape` for a stack. -/
def Tensor.shape : Tensor → List ℕ
  | Tensor.scalar _ => []
  | Tensor.stack ts => ts.length :: shapeHead ts

/-- The shape of the first tensor of a list (empty when the list is). -/
def shapeHead : List Tensor → List ℕ
  | [] => []
  | t :: _ => Tensor.shape t

end

/-- `len(t.size())`, the number of dimensions. -/
def Tensor.rank (t : Tensor) : ℕ := t.shape.length

/-- Whether all tensors of a list share the shape of the first one. -/
def sameShape (ts : List Tensor) : Bool :=
  ts.all fun t => Tensor.shape t == shapeHead ts

mutual

/-- Rectangularity: every stack's elements are well-formed and share a
common shape (always true of real torch tensors). -/
def Tensor.wfb : Tensor → Bool
  | Tensor.scalar _ => true
  | Tensor.stack ts => wfbList ts && sameShape ts

/-- `Tensor.wfb` on every tensor of a list. -/
def wfbList : List Tensor → Bool
  | [] => true
  | t :: ts => Tensor.wfb t && wfbList ts

end

/-- Whether every element of a stack is a scalar (then reducing the last
dimension collapses the stack itself to a scalar). -/
def allScalar (ts : List Tensor) : Bool := ts.all Tensor.isScalar

/-- The scalar values of a list of 0-dimensional tensors. -/
noncomputable def scalarVals (ts : List Tensor) : List ℝ :=
  ts.map Tensor.scalarVal

/-- The Lp reduction of a vector of reals, as `torch.norm` computes it:
the sum of the absolute values raised to the p-th power, raised to `1/p`. -/
noncomputable def lpReduce (p : ℝ) (xs : List ℝ) : ℝ :=
  ((xs.map fun x => |x| ^ p).sum) ^ p⁻¹

mutual

/-- `torch.norm(t, p, -1)` (env.py line 118): reduce the last dimension with
the Lp norm.  On a rank-1 tensor (a stack of scalars) the stack collapses to
a scalar; on higher rank the reduction maps over dimension 0.  Never reached
on a 0-dimensional tensor; modelled as the identity there. -/
noncomputable def reduceLast (p : ℝ) : Tensor → Tensor
  | Tensor.scalar x => Tensor.scalar x
  | Tensor.stack ts =>
    if allScalar ts then Tensor.scalar (lpReduce p (scalarVals ts))
    else Tensor.stack (reduceList p ts)

/-- `reduceLast` on every tensor of a list. -/
noncomputable def reduceList (p : ℝ) : List Tensor → List Tensor
  | [] => []
  | t :: ts => reduceLast p t :: reduceList p ts

end

/-- `k` successive applications of `reduceLast`. -/
noncomputable def reduceIter (p : ℝ) : ℕ → Tensor → Tensor
  | 0, t => t
  | k + 1, t => reduceIter p k (reduceLast p t)

/-- The `while len(norm_penalty.size()) > 1` loop of `norm_on_batch`
(env.py lines 117-118), with the rank of the input as (sufficient) fuel. -/
noncomputable def normLoop : ℕ → ℝ → Tensor → Tensor
  | 0, _, t => t
  | k + 1, p, t => if 1 < t.rank then normLoop k p (reduceLast p t) else t

/-- `norm_on_batch` (env.py lines 114-119): starting from `input`, repeatedly
reduce the trailing dimension with the Lp norm while more than one dimension
remains (dimension 0 is the batch dimension). -/
noncomputable def norm_on_batch (input : Tensor) (p : ℝ) : Tensor :=
  normLoop input.rank p input

/-- The dimension-0 slices (the batch instances) of a tensor. -/
def Tensor.components : Tensor → List Tensor
  | Tensor.scalar _ => []
  | Tensor.stack ts => ts

mutual

/-- The sum of the squares of all entries of a tensor (the square of the
Euclidean norm of the flattened tensor). -/
noncomputable def Tensor.sumSq : Tensor → ℝ
  | Tensor.scalar x => x ^ 2
  | Tensor.stack ts => sumSqList ts

/-- The sum of `Tensor.sumSq` over a list of tensors. -/
noncomputable def sumSqList : List Tensor → ℝ
  | [] => 0
  | t :: ts => Tensor.sumSq t + sumSqList ts

end

/-- A batch of one instance of shape (2,), with entries 3 and 4. -/
noncomputable def sampleBatch : Tensor :=
  Tensor.stack [Tensor.stack [Tensor.scalar 3, Tensor.scalar 4]]

/-! ### Theorems -/

theorem stepEnv_done_mono (e : EnvState) (h : e.done = true) :
    (stepEnv e).1.done = true := by
  unfold stepEnv
  by_cases h1 : e.nextIdx < e.nbatches
  · simp only [if_pos h1]
    by_cases h2 : e.episode_length ≤ e.ix + 1
    · simp [h2]
    · simp [h2, h]
  · simp [h1]

theorem stepsFrom_active (e : EnvState) (h0 : e.ix = 0) (h1 : e.done = false)
    (h2 : e.nextIdx = 1) (h3 : e.successorIdx = 0) :
    ∀ k, k < min e.episode_length e.nbatches →
      stepsFrom e k = { e with ix := k, nextIdx := k + 1, successorIdx := k } := by
  intro k
  induction k with
  | zero =>
    intro _
    cases e
    simp_all [stepsFrom]
  | succ k ih =>
    intro hk
    have hk1 : k < min e.episode_length e.nbatches := by omega
    have hprev := ih hk1
    show (stepEnv (stepsFrom e k)).1 = _
    rw [hprev]
    unfold stepEnv
    have hlt : k + 1 < e.nbatches := by
      have := min_le_right e.episode_length e.nbatches
      omega
    have hlt2 : ¬ e.episode_length ≤ k + 1 := by
      have := min_le_left e.episode_length e.nbatches
      omega
    cases e
    simp_all

theorem stepsFrom_done_iff (e : EnvState) (h0 : e.ix = 0) (h1 : e.done = false)
    (h2 : e.nextIdx = 1) (h3 : e.successorIdx = 0)
    (hL : 1 ≤ e.episode_length) (hN : 1 ≤ e.nbatches) :
    ∀ k, ((stepsFrom e k).done = true ↔ min e.episode_length e.nbatches ≤ k) := by
  have hmin : 1 ≤ min e.episode_length e.nbatches := le_min hL hN
  have hAt : (stepsFrom e (min e.episode_length e.nbatches)).done = true := by
    obtain ⟨m, hm⟩ : ∃ m, min e.episode_length e.nbatches = m + 1 :=
      ⟨_, (Nat.succ_pred_eq_of_pos hmin).symm⟩
    rw [hm]
    have hprev := stepsFrom_active e h0 h1 h2 h3 m (by omega)
    have hchoice := min_choice e.episode_length e.nbatches
    have hle1 := min_le_left e.episode_length e.nbatches
    have hle2 := min_le_right e.episode_length e.nbatches
    show (stepEnv (stepsFrom e m)).1.done = true
    rw [hprev]
    unfold stepEnv
    dsimp only
    by_cases hc : m + 1 < e.nbatches
    · have hLe : e.episode_length ≤ m + 1 := by
        rcases hchoice with hch | hch <;> omega
      rw [if_pos hc]
      dsimp only
      rw [if_pos hLe]
    · rw [if_neg hc]
  intro k
  constructor
  · intro hdone
    by_contra hk
    push_neg at hk
    have hcf := stepsFrom_active e h0 h1 h2 h3 k hk
    rw [hcf] at hdone
    cases e
    simp_all
  · intro hk
    have hup : ∀ j, (stepsFrom e (min e.episode_length e.nbatches + j)).done = true := by
      intro j
      induction j with
      | zero => simpa using hAt
      | succ j ih =>
        show (stepEnv _).1.done = true
        exact stepEnv_done_mono _ ih
    have hk2 : k = min e.episode_length e.nbatches + (k - min e.episode_length e.nbatches) := by
      omega
    rw [hk2]
    exact hup _

theorem constructEnv_ok_fields (cfg : EnvConfig) (e : EnvState)
    (h : constructEnv cfg = Except.ok e) :
    e.ix = 0 ∧ e.done = false ∧ e.nextIdx = 1 ∧ e.successorIdx = 0 ∧
    e.nbatches = loaderNumBatches (samplerOf cfg).declaredSize cfg.batch_size ∧
    1 ≤ e.nbatches ∧
    e.episode_length = (if pyFalsy cfg.episode_length = true then
        cfg.dataset.size / cfg.batch_size else cfg.episode_length.getD 0) ∧
    e.sampler = samplerOf cfg ∧ e.batch_size = cfg.batch_size ∧
    e.dataset = cfg.dataset ∧
    e.action_space =
      TensorBox.mk 0 1 (cfg.batch_size :: (cfg.dataset.items 0).input.shape.tail) ∧
    e.observation_space = e.action_space := by
  unfold constructEnv at h
  repeat' (first | (split at h) | (dsimp only at h))
  any_goals exact Except.noConfusion h
  all_goals
    rename_i e1 snd heq
    injection h with h
    subst h
    unfold resetEnv at heq
    dsimp only at heq
    split at heq
    · exact Except.noConfusion heq
    · rename_i hnb
      injection heq with heq
      injection heq with hA hB
      subst hA
      refine ⟨rfl, rfl, rfl, rfl, rfl, by dsimp only; omega, ?_, rfl, rfl, rfl, rfl, rfl⟩
      simp_all

theorem constructEnv_cfgGood : constructEnv cfgGood = Except.ok envGood := rfl

/-- C2: on a validly constructed environment with the default sampler
(declared size `len(dataset)`), the episode started by the construction-time
`_reset` first has `done = true` after exactly
`min(episode_length, dataset_size / batch_size)` `_step` calls, and the batch
iterator yields exactly `dataset_size / batch_size` (floor) batches. -/
theorem episode_first_done_at_min (cfg : EnvConfig) (e : EnvState)
    (hok : constructEnv cfg = Except.ok e) (hs : cfg.sampler = Option.none) :
    e.nbatches = cfg.dataset.size / cfg.batch_size ∧
    ∀ k : ℕ, ((stepsFrom e k).done = true ↔
      min e.episode_length (cfg.dataset.size / cfg.batch_size) ≤ k) := by
  obtain ⟨hix, hdone, hni, hsi, hnb, hnb1, hL, -, -, -, -, -⟩ :=
    constructEnv_ok_fields cfg e hok
  have hsmp : samplerOf cfg = uniformSampler cfg.dataset.size := by
    simp [samplerOf, samplerFalsy, hs]
  have hnb2 : e.nbatches = cfg.dataset.size / cfg.batch_size := by
    rw [hnb, hsmp]
    rfl
  have hL1 : 1 ≤ e.episode_length := by
    rw [hL]
    by_cases hf : pyFalsy cfg.episode_length = true
    · rw [if_pos hf]
      omega
    · rw [if_neg hf]
      cases hep : cfg.episode_length with
      | none => rw [hep] at hf; simp [pyFalsy] at hf
      | some n =>
        rw [hep] at hf
        simp [pyFalsy] at hf
        simpa using Nat.one_le_iff_ne_zero.mpr hf
  refine ⟨hnb2, fun k => ?_⟩
  rw [← hnb2]
  exact stepsFrom_done_iff e hix hdone hni hsi hL1 hnb1 k

theorem episode_first_done_at_min_witness :
    (stepsFrom envGood 1).done = false ∧ (stepsFrom envGood 2).done = true := by
  have h := episode_first_done_at_min cfgGood envGood constructEnv_cfgGood rfl
  constructor
  · cases hb : (stepsFrom envGood 1).done
    · rfl
    · have h2 := (h.2 1).mp hb
      simp [envGood, cfgGood, goodDataset] at h2
  · refine (h.2 2).mpr ?_
    norm_num [envGood, cfgGood, goodDataset]

/-- C3: `_reset`, callable in any state of a validly constructed environment
(one whose rebuilt iterator yields at least one batch), rebuilds the batch
iterator, draws the first batch (position 0) into the successor buffer, sets
`ix = 0` and `done = false`, and returns that first batch as the observation;
the batch it returns has batch dimension `batch_size`. -/
theorem reset_rebuilds_and_returns_first_batch (e : EnvState)
    (h : 1 ≤ loaderNumBatches e.sampler.declaredSize e.batch_size) :
    resetEnv e = Except.ok
      ({ e with nbatches := loaderNumBatches e.sampler.declaredSize e.batch_size,
                nextIdx := 1, successorIdx := 0, done := false, ix := 0 }, 0) ∧
    (loaderBatchShape e.dataset e.batch_size).head? = Option.some e.batch_size := by
  refine ⟨?_, rfl⟩
  unfold resetEnv
  dsimp only
  rw [if_neg (by omega)]

theorem reset_rebuilds_and_returns_first_batch_witness :
    resetEnv envMidway = Except.ok
      ({ envMidway with
          nbatches := loaderNumBatches envMidway.sampler.declaredSize envMidway.batch_size,
          nextIdx := 1, successorIdx := 0, done := false, ix := 0 }, 0) ∧
    (loaderBatchShape envMidway.dataset envMidway.batch_size).head? =
      Option.some envMidway.batch_size :=
  reset_rebuilds_and_returns_first_batch envMidway (by decide)

/-- C5: `_seed(value)` raises the validation `gym.error.Error` whenever
`value` is neither `None` nor a non-negative integer (no silent coercion), and
every accepted value is returned wrapped as a single-element list. -/
theorem seed_validation_spec (v : PyValue) :
    (¬(v = PyValue.none ∨ ∃ n : ℤ, 0 ≤ n ∧ v = PyValue.int n) →
      envSeed v = Except.error (PyErr.gymSeedError (pyTypeName v))) ∧
    (∀ rng : TorchRng, ∀ sd : List PyValue,
      envSeed v = Except.ok (rng, sd) → sd = [v]) := by
  cases v with
  | none =>
    refine ⟨fun hv => absurd (Or.inl rfl) hv, fun rng sd hout => ?_⟩
    simp only [envSeed] at hout
    rw [if_neg (by simp)] at hout
    injection hout with hp
    injection hp with h1 h2
    exact h2.symm
  | int n =>
    by_cases hn : 0 ≤ n
    · refine ⟨fun hv => absurd (Or.inr ⟨n, hn, rfl⟩) hv, fun rng sd hout => ?_⟩
      simp only [envSeed] at hout
      rw [if_neg (by simp [isIntInstance, intVal, hn])] at hout
      injection hout with hp
      injection hp with h1 h2
      exact h2.symm
    · refine ⟨fun hv => ?_, fun rng sd hout => ?_⟩
      · simp only [envSeed]
        rw [if_pos ⟨by simp, by simp [isIntInstance, intVal, hn]⟩]
      · simp only [envSeed] at hout
        rw [if_pos ⟨by simp, by simp [isIntInstance, intVal, hn]⟩] at hout
        exact Except.noConfusion hout
  | float x =>
    refine ⟨fun hv => ?_, fun rng sd hout => ?_⟩
    · simp only [envSeed]
      rw [if_pos ⟨by simp, by simp [isIntInstance]⟩]
    · simp only [envSeed] at hout
      rw [if_pos ⟨by simp, by simp [isIntInstance]⟩] at hout
      exact Except.noConfusion hout
  | str s =>
    refine ⟨fun hv => ?_, fun rng sd hout => ?_⟩
    · simp only [envSeed]
      rw [if_pos ⟨by simp, by simp [isIntInstance]⟩]
    · simp only [envSeed] at hout
      rw [if_pos ⟨by simp, by simp [isIntInstance]⟩] at hout
      exact Except.noConfusion hout

theorem seed_validation_spec_witness :
    envSeed (PyValue.float (1/2)) = Except.error (PyErr.gymSeedError "float") ∧
    envSeed (PyValue.int (-7)) = Except.error (PyErr.gymSeedError "int") ∧
    envSeed (PyValue.int 42) = Except.ok (TorchRng.manualSeed 42, [PyValue.int 42]) := by
  refine ⟨?_, ?_, by rfl⟩
  · refine (seed_validation_spec (PyValue.float (1/2))).1 ?_
    rintro (h | ⟨n, hn, h⟩)
    · exact PyValue.noConfusion h
    · exact PyValue.noConfusion h
  · refine (seed_validation_spec (PyValue.int (-7))).1 ?_
    rintro (h | ⟨n, hn, h⟩)
    · exact PyValue.noConfusion h
    · injection h with h2
      omega

/-- C8: when `_step` runs with `done = false` and the iterator already
exhausted, the draw raises `StopIteration` before `ix` or the successor buffer
changes, so the call only sets `done = true`; it returns the unchanged
buffered successor (the very batch the previous call returned) as its
observation, and that same batch is the `current_obs` handed to
`_get_reward`. -/
theorem step_exhaustion_frame (e : EnvState) (hdone : e.done = false)
    (hex : e.nbatches ≤ e.nextIdx) :
    stepEnv e = ({ e with done := true },
      { obs := e.successorIdx, rewardObs := e.successorIdx, done := true }) := by
  unfold stepEnv
  rw [if_neg (by omega)]

theorem step_exhaustion_frame_witness :
    stepEnv envExhausted = ({ envExhausted with done := true },
      { obs := envExhausted.successorIdx, rewardObs := envExhausted.successorIdx,
        done := true }) :=
  step_exhaustion_frame envExhausted rfl (by decide)

/-- C9: the construction-time dataset capability check looks only at the item
at index 0: every `Dataset` subclass whose item 0 input is a float tensor
passes, whatever the remaining items are, and the check result depends only on
the subclass flag and item 0. -/
theorem dataset_check_inspects_item0_only :
    (∀ d : PyDataset, d.isDatasetSubclass = true →
      (d.items 0).input.isFloatTensor = true → checkDataset d = true) ∧
    (∀ d1 d2 : PyDataset, d1.isDatasetSubclass = d2.isDatasetSubclass →
      d1.items 0 = d2.items 0 → checkDataset d1 = checkDataset d2) := by
  constructor
  · intro d h1 h2
    simp [checkDataset, h1, h2]
  · intro d1 d2 h1 h2
    simp [checkDataset, h1, h2]

theorem dataset_check_inspects_item0_only_witness :
    checkDataset mixedDataset = true ∧
    (mixedDataset.items 1).input.isFloatTensor = false :=
  ⟨dataset_check_inspects_item0_only.1 mixedDataset rfl rfl, rfl⟩

/-- C10: passing `episode_length = 0` is not rejected and not honoured:
line 53 treats `0` as falsy, so the stored episode length is the default
`len(dataset) // batch_size`, and construction behaves exactly as if
`episode_length` had been omitted. -/
theorem episode_length_zero_uses_default (cfg : EnvConfig)
    (h : cfg.episode_length = Option.some 0) :
    constructEnv cfg = constructEnv { cfg with episode_length := Option.none } ∧
    ∀ e : EnvState, constructEnv cfg = Except.ok e →
      e.episode_length = cfg.dataset.size / cfg.batch_size := by
  constructor
  · unfold constructEnv
    simp [h, pyFalsy, samplerOf, samplerFalsy]
  · intro e hok
    obtain ⟨-, -, -, -, -, -, hL, -, -, -, -, -⟩ := constructEnv_ok_fields cfg e hok
    rw [hL, if_pos (by simp [h, pyFalsy])]

theorem episode_length_zero_uses_default_witness :
    constructEnv cfgZero = constructEnv { cfgZero with episode_length := Option.none } ∧
    envGood.episode_length = cfgZero.dataset.size / cfgZero.batch_size :=
  ⟨(episode_length_zero_uses_default cfgZero rfl).1,
   (episode_length_zero_uses_default cfgZero rfl).2 envGood rfl⟩

/-- C7 counterexample: with `target_model` a plain `int`, the model capability
check would fail, but construction dies earlier, at the line-47 device
placement `target_model.cpu()`, with a bare `AttributeError` that names
neither the expected capability nor comes from the check - so construction
does not fail "with a descriptive error that identifies the offending
object's type and the expected capability" as the claim states. -/
theorem capability_error_counterexample :
    checkModel cfgIntModel.target_model = false ∧
    constructEnv cfgIntModel = Except.error (PyErr.attributeError "int" "cpu") ∧
    isCapabilityError (constructEnv cfgIntModel) = false :=
  ⟨rfl, rfl, rfl⟩

/-- C7 amended: whenever the pre-check duck-typed accesses succeed (no seed is
given, the model exposes the `cpu`/`cuda` placement methods, the dataset is
indexable and its item 0 input exposes `size()`, and `batch_size` is nonzero)
and a capability check fails on the dataset, the model, or the *stored*
sampler, construction fails with the descriptive `gym.error.Error` of the
first failing check - an error value carrying the offending object's type name
and the expected capability - and no environment instance is produced.  Two
carve-outs narrow the original claim: when the pre-check accesses themselves
fail, construction still fails but with a bare `AttributeError`/`TypeError`;
and a *falsy* non-`Sampler` argument (e.g. an empty list) never reaches its
check at all - line 54's `if not sampler` silently replaces it with the
default `UniformSampler` and construction succeeds
(`falsy_sampler_silently_replaced` below). -/
theorem capability_failure_is_descriptive (cfg : EnvConfig)
    (hseed : cfg.seed = PyValue.none)
    (hcpu : cfg.target_model.hasCpuCuda = true)
    (hidx : cfg.dataset.indexable = true)
    (hsize : (cfg.dataset.items 0).input.hasSize = true)
    (hbz : cfg.batch_size ≠ 0)
    (hfail : checkDataset cfg.dataset = false ∨ checkModel cfg.target_model = false ∨
      checkSampler (samplerOf cfg) = false) :
    constructEnv cfg = Except.error (firstCapabilityError cfg) := by
  unfold constructEnv firstCapabilityError
  rw [if_neg (by simp [hseed])]
  rw [show envSeed cfg.seed = Except.ok (TorchRng.defaultGenerator, [PyValue.none]) from
    by rw [hseed]; rfl]
  dsimp only
  rw [if_neg (by simp [hcpu]), if_neg (by simp [hidx]), if_neg (by simp [hsize]),
      if_neg (by simp [hbz])]
  by_cases h1 : checkDataset cfg.dataset = false
  · rw [if_pos h1, if_pos h1]
  · rw [if_neg h1, if_neg h1]
    by_cases h2 : checkModel cfg.target_model = false
    · rw [if_pos h2, if_pos h2]
    · rw [if_neg h2, if_neg h2]
      have h3 : checkSampler (samplerOf cfg) = false := by tauto
      rw [if_pos h3]

theorem capability_failure_is_descriptive_witness :
    constructEnv cfgBadSampler =
      Except.error (PyErr.gymConfigError "list"
        "subclass of torch.utils.data.sampler.Sampler") := by
  have h := capability_failure_is_descriptive cfgBadSampler rfl rfl rfl rfl
    (by decide) (Or.inr (Or.inr rfl))
  simpa [firstCapabilityError, samplerErr, cfgBadSampler, notASampler, samplerOf,
    samplerFalsy, checkDataset, checkModel, goodDataset, goodModel] using h

/-- Supporting evidence for the C7 carve-out: a falsy non-`Sampler` argument
(an empty list) fails the sampler capability check, yet construction succeeds,
because line 54's truthiness test silently substitutes the default
`UniformSampler` before the check runs - the environment produced is the same
one the default-sampler construction `cfgGood` yields. -/
theorem falsy_sampler_silently_replaced :
    checkSampler emptyListSampler = false ∧
    samplerOf cfgEmptyListSampler = uniformSampler 4 ∧
    constructEnv cfgEmptyListSampler = Except.ok envGood :=
  ⟨rfl, rfl, rfl⟩

/-- C1 (code-bug evidence): line 50 computes the space shape as
`(batch_size, *space_shape[1:])`, dropping the leading dimension of the
per-instance shape.  For a dataset of (3, 32, 32) instances and batch size 4,
both declared spaces get shape (4, 32, 32) with bounds [0, 1], while the
batches the environment actually returns have shape (4, 3, 32, 32) - so the
declared spaces cannot contain the real observations. -/
theorem space_shape_drops_instance_dim :
    (constructEnv cfgImage).map (fun e => (e.action_space, e.observation_space)) =
      Except.ok (TensorBox.mk 0 1 [4, 32, 32], TensorBox.mk 0 1 [4, 32, 32]) ∧
    loaderBatchShape cfgImage.dataset cfgImage.batch_size = [4, 3, 32, 32] ∧
    ([4, 32, 32] : List ℕ) ≠ [4, 3, 32, 32] :=
  ⟨rfl, rfl, by decide⟩

/-- C4 (code-bug evidence): with any non-`None` seed, line 45 evaluates
`torch.backend.cudnn.enabled = False`, but the torch module has no `backend`
attribute (the CUDNN switch lives at `torch.backends.cudnn`), so construction
with a non-negative integer seed raises `AttributeError` instead of disabling
CUDNN and completing normally. -/
theorem seeded_construction_raises_attribute_error :
    constructEnv cfgSeeded = Except.error (PyErr.attributeError "torch" "backend") ∧
    torchHasAttr "backends" = true ∧ torchHasAttr "backend" = false :=
  ⟨rfl, by decide, by decide⟩

/-! ### Tensor lemmas -/

theorem wfbList_iff (ts : List Tensor) :
    wfbList ts = true ↔ ∀ t ∈ ts, Tensor.wfb t = true := by
  induction ts with
  | nil => simp [wfbList]
  | cons t ts ih => simp [wfbList, ih]

theorem sameShape_iff (ts : List Tensor) :
    sameShape ts = true ↔ ∀ t ∈ ts, Tensor.shape t = shapeHead ts := by
  simp [sameShape, List.all_eq_true]

theorem wfb_stack_iff (ts : List Tensor) :
    Tensor.wfb (Tensor.stack ts) = true ↔
      (∀ t ∈ ts, Tensor.wfb t = true) ∧
      (∀ t ∈ ts, Tensor.shape t = shapeHead ts) := by
  simp [Tensor.wfb, wfbList_iff, sameShape_iff]

theorem shape_eq_nil_iff (t : Tensor) :
    Tensor.shape t = [] ↔ Tensor.isScalar t = true := by
  cases t with
  | scalar x => simp [Tensor.shape, Tensor.isScalar]
  | stack ts => simp [Tensor.shape, Tensor.isScalar]

theorem reduceList_eq_map (p : ℝ) (ts : List Tensor) :
    reduceList p ts = ts.map (reduceLast p) := by
  induction ts with
  | nil => simp [reduceList]
  | cons t ts ih => simp [reduceList, ih]

theorem reduceLast_shape_wf (p : ℝ) :
    ∀ r : ℕ, ∀ t : Tensor, Tensor.wfb t = true → Tensor.rank t = r → 1 ≤ r →
      Tensor.shape (reduceLast p t) = (Tensor.shape t).dropLast ∧
      Tensor.wfb (reduceLast p t) = true := by
  intro r
  induction r using Nat.strong_induction_on with
  | _ r ih =>
    intro t hwf hr hr1
    cases t with
    | scalar x =>
      simp [Tensor.rank, Tensor.shape] at hr
      omega
    | stack ts =>
      obtain ⟨hwfs, hshs⟩ := (wfb_stack_iff ts).mp hwf
      cases hsh : shapeHead ts with
      | nil =>
        have hall : allScalar ts = true := by
          rw [allScalar, List.all_eq_true]
          intro u hu
          exact (shape_eq_nil_iff u).mp (by rw [hshs u hu, hsh])
        constructor
        · simp [reduceLast, hall, Tensor.shape, hsh]
        · simp [reduceLast, hall, Tensor.wfb]
      | cons m0 s0 =>
        obtain ⟨t0, ts', rfl⟩ : ∃ t0 ts', ts = t0 :: ts' := by
          cases ts with
          | nil => simp [shapeHead] at hsh
          | cons a l => exact ⟨a, l, rfl⟩
        have hsc0 : Tensor.isScalar t0 = false := by
          cases t0 with
          | scalar y =>
            have := hshs (Tensor.scalar y) (by simp)
            rw [hsh] at this
            simp [Tensor.shape] at this
          | stack l => simp [Tensor.isScalar]
        have hnotall : allScalar (t0 :: ts') = false := by
          simp [allScalar, hsc0]
        have hred : reduceLast p (Tensor.stack (t0 :: ts')) =
            Tensor.stack ((t0 :: ts').map (reduceLast p)) := by
          simp [reduceLast, hnotall, reduceList_eq_map]
        have hr' : Tensor.rank (Tensor.stack (t0 :: ts')) = 1 + (m0 :: s0).length := by
          simp [Tensor.rank, Tensor.shape, hsh]
          omega
        have hlt : (m0 :: s0).length < r := by omega
        have helem : ∀ u ∈ t0 :: ts',
            Tensor.shape (reduceLast p u) = (m0 :: s0).dropLast ∧
            Tensor.wfb (reduceLast p u) = true := by
          intro u hu
          have hsu : Tensor.shape u = m0 :: s0 := by rw [hshs u hu, hsh]
          have := ih (m0 :: s0).length hlt u (hwfs u hu)
            (by simp [Tensor.rank, hsu]) (by simp)
          rwa [hsu] at this
        constructor
        · rw [hred]
          have hsh0 : Tensor.shape t0 = m0 :: s0 := by
            have hx := hshs t0 (by simp)
            rw [hx, hsh]
          simp only [Tensor.shape, shapeHead, List.map_cons, List.length_map,
            (helem t0 (by simp)).1, hsh0]
          rw [List.dropLast_cons₂]
          simp
        · rw [hred]
          rw [wfb_stack_iff]
          constructor
          · intro v hv
            obtain ⟨u, hu, rfl⟩ := List.mem_map.mp hv
            exact (helem u hu).2
          · intro v hv
            obtain ⟨u, hu, rfl⟩ := List.mem_map.mp hv
            rw [(helem u hu).1]
            simp only [List.map_cons, shapeHead]
            rw [(helem t0 (by simp)).1]

theorem reduceLast_rank (p : ℝ) (t : Tensor) (hwf : Tensor.wfb t = true)
    (h1 : 1 ≤ Tensor.rank t) :
    Tensor.rank (reduceLast p t) = Tensor.rank t - 1 := by
  have hsw := reduceLast_shape_wf p (Tensor.rank t) t hwf rfl h1
  unfold Tensor.rank
  rw [hsw.1, List.length_dropLast]

theorem reduceIter_shape_wf (p : ℝ) :
    ∀ j : ℕ, ∀ t : Tensor, Tensor.wfb t = true → j < Tensor.rank t →
      Tensor.shape (reduceIter p j t) = (Tensor.shape t).take (Tensor.rank t - j) ∧
      Tensor.wfb (reduceIter p j t) = true := by
  intro j
  induction j with
  | zero =>
    intro t hwf h
    refine ⟨?_, hwf⟩
    show Tensor.shape t = _
    rw [Nat.sub_zero]
    unfold Tensor.rank
    rw [List.take_length]
  | succ j ih =>
    intro t hwf h
    have hsw := reduceLast_shape_wf p (Tensor.rank t) t hwf rfl (by omega)
    have hrank : Tensor.rank (reduceLast p t) = Tensor.rank t - 1 :=
      reduceLast_rank p t hwf (by omega)
    show Tensor.shape (reduceIter p j (reduceLast p t)) = _ ∧ _
    have hih := ih (reduceLast p t) hsw.2 (by omega)
    rw [hrank] at hih
    refine ⟨?_, hih.2⟩
    rw [hih.1, hsw.1]
    rw [List.dropLast_eq_take, List.take_take]
    congr 1
    unfold Tensor.rank at h ⊢
    omega

theorem normLoop_eq_reduceIter (p : ℝ) :
    ∀ r : ℕ, ∀ t : Tensor, Tensor.wfb t = true → Tensor.rank t = r →
      normLoop r p t = reduceIter p (r - 1) t := by
  intro r
  induction r using Nat.strong_induction_on with
  | _ r ih =>
    intro t hwf hr
    match r with
    | 0 => rfl
    | 1 =>
      show (if 1 < Tensor.rank t then _ else t) = _
      rw [if_neg (by omega)]
      rfl
    | (m + 2) =>
      show (if 1 < Tensor.rank t then normLoop (m + 1) p (reduceLast p t) else t) = _
      rw [if_pos (by omega)]
      have hsw := reduceLast_shape_wf p (m + 2) t hwf hr (by omega)
      have hrank : Tensor.rank (reduceLast p t) = m + 1 := by
        rw [reduceLast_rank p t hwf (by omega), hr]
        omega
      rw [ih (m + 1) (by omega) (reduceLast p t) hsw.2 hrank]
      rfl

theorem reduceIter_succ_outer (p : ℝ) :
    ∀ k : ℕ, ∀ t : Tensor,
      reduceIter p (k + 1) t = reduceLast p (reduceIter p k t) := by
  intro k
  induction k with
  | zero => intro t; rfl
  | succ k ih =>
    intro t
    show reduceIter p (k + 1) (reduceLast p t) = _
    rw [ih]
    rfl

theorem reduceIter_stack_comm (p : ℝ) :
    ∀ m : ℕ, 1 ≤ m → ∀ ts : List Tensor, ts ≠ [] →
      (∀ t ∈ ts, Tensor.wfb t = true ∧ Tensor.rank t = m) →
      reduceIter p m (Tensor.stack ts) =
        Tensor.stack (ts.map (reduceIter p m)) := by
  intro m
  induction m with
  | zero => omega
  | succ m ih =>
    intro hm ts hne hts
    obtain ⟨t0, ts', rfl⟩ := List.exists_cons_of_ne_nil hne
    have h0 := hts t0 (by simp)
    have hsc0 : Tensor.isScalar t0 = false := by
      cases t0 with
      | scalar x =>
        have := h0.2
        simp [Tensor.rank, Tensor.shape] at this
      | stack l => simp [Tensor.isScalar]
    have hnotall : allScalar (t0 :: ts') = false := by simp [allScalar, hsc0]
    have hstep : reduceLast p (Tensor.stack (t0 :: ts')) =
        Tensor.stack ((t0 :: ts').map (reduceLast p)) := by
      simp [reduceLast, hnotall, reduceList_eq_map]
    show reduceIter p m (reduceLast p (Tensor.stack (t0 :: ts'))) = _
    rw [hstep]
    rcases Nat.eq_zero_or_pos m with hm0 | hm1
    · subst hm0
      show Tensor.stack ((t0 :: ts').map (reduceLast p)) = _
      congr 1
    · have helems : ∀ v ∈ (t0 :: ts').map (reduceLast p),
          Tensor.wfb v = true ∧ Tensor.rank v = m := by
        intro v hv
        obtain ⟨u, hu, rfl⟩ := List.mem_map.mp hv
        obtain ⟨huw, hur⟩ := hts u hu
        refine ⟨(reduceLast_shape_wf p (m + 1) u huw hur (by omega)).2, ?_⟩
        rw [reduceLast_rank p u huw (by omega), hur]
        omega
      rw [ih hm1 _ (by simp) helems]
      rw [List.map_map]
      congr 1

mutual

theorem sumSq_nonneg : ∀ t : Tensor, 0 ≤ Tensor.sumSq t
  | Tensor.scalar x => by rw [Tensor.sumSq]; exact sq_nonneg x
  | Tensor.stack ts => by rw [Tensor.sumSq]; exact sumSqList_nonneg ts

theorem sumSqList_nonneg : ∀ ts : List Tensor, 0 ≤ sumSqList ts
  | [] => by rw [sumSqList]
  | t :: ts => by
    rw [sumSqList]
    exact add_nonneg (sumSq_nonneg t) (sumSqList_nonneg ts)

end

theorem sumSqList_eq_map_sum (ts : List Tensor) :
    sumSqList ts = (ts.map Tensor.sumSq).sum := by
  induction ts with
  | nil => simp [sumSqList]
  | cons t ts ih => simp [sumSqList, ih]

theorem sumSqList_of_allScalar (ts : List Tensor) (h : allScalar ts = true) :
    sumSqList ts = ((scalarVals ts).map fun x => x ^ 2).sum := by
  induction ts with
  | nil => simp [sumSqList, scalarVals]
  | cons t ts ih =>
    rw [allScalar, List.all_cons, Bool.and_eq_true] at h
    obtain ⟨h1, h2⟩ := h
    cases t with
    | scalar x =>
      rw [sumSqList, scalarVals, List.map_cons, List.map_cons, List.sum_cons]
      rw [ih (by rw [allScalar]; exact h2)]
      rw [Tensor.sumSq, Tensor.scalarVal, scalarVals]
    | stack l => simp [Tensor.isScalar] at h1

theorem lpReduce_two_eq_sqrt (vals : List ℝ) :
    lpReduce 2 vals = Real.sqrt ((vals.map fun x => x ^ 2).sum) := by
  unfold lpReduce
  rw [show ((2 : ℝ))⁻¹ = 1 / 2 by norm_num, ← Real.sqrt_eq_rpow]
  refine congrArg Real.sqrt (congrArg List.sum ?_)
  apply List.map_congr_left
  intro x _
  rw [show (2 : ℝ) = ((2 : ℕ) : ℝ) by norm_num, Real.rpow_natCast, sq_abs]

theorem reduceLast_stack_allScalar (p : ℝ) (ts : List Tensor)
    (h : allScalar ts = true) :
    reduceLast p (Tensor.stack ts) = Tensor.scalar (lpReduce p (scalarVals ts)) := by
  rw [reduceLast, if_pos h]

theorem reduceIter_collapse :
    ∀ r : ℕ, ∀ t : Tensor, Tensor.wfb t = true → Tensor.rank t = r → 1 ≤ r →
      reduceIter 2 r t = Tensor.scalar (Real.sqrt (Tensor.sumSq t)) := by
  intro r
  induction r using Nat.strong_induction_on with
  | _ r ih =>
    intro t hwf hr hr1
    cases t with
    | scalar x =>
      simp [Tensor.rank, Tensor.shape] at hr
      omega
    | stack ts =>
      obtain ⟨hwfs, hshs⟩ := (wfb_stack_iff ts).mp hwf
      cases hsh : shapeHead ts with
      | nil =>
        have hrank : Tensor.rank (Tensor.stack ts) = 1 := by
          simp [Tensor.rank, Tensor.shape, hsh]
        have hre : r = 1 := by omega
        subst hre
        have hall : allScalar ts = true := by
          rw [allScalar, List.all_eq_true]
          intro u hu
          exact (shape_eq_nil_iff u).mp (by rw [hshs u hu, hsh])
        show reduceLast 2 (Tensor.stack ts) = _
        rw [reduceLast_stack_allScalar 2 ts hall]
        congr 1
        rw [lpReduce_two_eq_sqrt]
        congr 1
        rw [Tensor.sumSq]
        exact (sumSqList_of_allScalar ts hall).symm
      | cons m0 s0 =>
        obtain ⟨t0, ts', rfl⟩ : ∃ t0 ts', ts = t0 :: ts' := by
          cases ts with
          | nil => simp [shapeHead] at hsh
          | cons a l => exact ⟨a, l, rfl⟩
        have hrank : Tensor.rank (Tensor.stack (t0 :: ts')) = (m0 :: s0).length + 1 := by
          simp [Tensor.rank, Tensor.shape, hsh]
        have hre : r = (m0 :: s0).length + 1 := by omega
        subst hre
        have hts : ∀ u ∈ t0 :: ts', Tensor.wfb u = true ∧
            Tensor.rank u = (m0 :: s0).length := by
          intro u hu
          refine ⟨hwfs u hu, ?_⟩
          unfold Tensor.rank
          rw [hshs u hu, hsh]
        have hM1 : 1 ≤ (m0 :: s0).length := by simp
        rw [reduceIter_succ_outer]
        rw [reduceIter_stack_comm 2 (m0 :: s0).length hM1 (t0 :: ts') (by simp) hts]
        have hmap : (t0 :: ts').map (reduceIter 2 (m0 :: s0).length) =
            (t0 :: ts').map (fun u => Tensor.scalar (Real.sqrt (Tensor.sumSq u))) := by
          apply List.map_congr_left
          intro u hu
          exact ih (m0 :: s0).length (by omega) u (hts u hu).1 (hts u hu).2 hM1
        rw [hmap]
        have hall2 : allScalar ((t0 :: ts').map fun u =>
            Tensor.scalar (Real.sqrt (Tensor.sumSq u))) = true := by
          rw [allScalar, List.all_eq_true]
          intro v hv
          obtain ⟨u, hu, rfl⟩ := List.mem_map.mp hv
          rfl
        rw [reduceLast_stack_allScalar 2 _ hall2]
        congr 1
        have hvals : scalarVals ((t0 :: ts').map fun u =>
            Tensor.scalar (Real.sqrt (Tensor.sumSq u))) =
            (t0 :: ts').map fun u => Real.sqrt (Tensor.sumSq u) := by
          rw [scalarVals, List.map_map]
          apply List.map_congr_left
          intro u hu
          rfl
        rw [hvals, lpReduce_two_eq_sqrt]
        congr 1
        rw [List.map_map]
        rw [Tensor.sumSq, sumSqList_eq_map_sum]
        refine congrArg List.sum ?_
        apply List.map_congr_left
        intro u hu
        show Real.sqrt (Tensor.sumSq u) ^ 2 = Tensor.sumSq u
        exact Real.sq_sqrt (sumSq_nonneg u)

/-- C6: for every tensor of rank at least 2 (shape `n :: m :: s`, batch
dimension first) and every norm order `p`, `norm_on_batch` returns a rank-1
tensor whose length equals the batch dimension `n` - all trailing dimensions
reduced - and for `p = 2` the result is exactly the stack of the Euclidean
norms (square root of the sum of squares) of the flattened batch instances. -/
theorem norm_on_batch_spec (p : ℝ) (t : Tensor) (n m : ℕ) (s : List ℕ)
    (hwf : Tensor.wfb t = true) (hs : Tensor.shape t = n :: m :: s) :
    Tensor.shape (norm_on_batch t p) = [n] ∧
    norm_on_batch t 2 =
      Tensor.stack (t.components.map fun u =>
        Tensor.scalar (Real.sqrt (Tensor.sumSq u))) := by
  have hrank : Tensor.rank t = s.length + 2 := by
    unfold Tensor.rank
    rw [hs]
    simp
  have hNL : ∀ q : ℝ, norm_on_batch t q = reduceIter q (Tensor.rank t - 1) t := by
    intro q
    unfold norm_on_batch
    exact normLoop_eq_reduceIter q (Tensor.rank t) t hwf rfl
  constructor
  · rw [hNL p]
    have hshp := (reduceIter_shape_wf p (Tensor.rank t - 1) t hwf (by omega)).1
    rw [hshp, hs]
    rw [show Tensor.rank t - (Tensor.rank t - 1) = 1 by omega]
    rfl
  · rw [hNL 2]
    cases t with
    | scalar x => simp [Tensor.shape] at hs
    | stack ts =>
      obtain ⟨hwfs, hshs⟩ := (wfb_stack_iff ts).mp hwf
      rw [Tensor.shape, List.cons.injEq] at hs
      obtain ⟨hn, hsh2⟩ := hs
      have hts : ∀ u ∈ ts, Tensor.wfb u = true ∧ Tensor.rank u = (m :: s).length := by
        intro u hu
        refine ⟨hwfs u hu, ?_⟩
        unfold Tensor.rank
        rw [hshs u hu, hsh2]
      have hne : ts ≠ [] := by
        intro hnil
        subst hnil
        simp [shapeHead] at hsh2
      have hrM : Tensor.rank (Tensor.stack ts) - 1 = (m :: s).length := by
        rw [hrank]
        simp
      rw [hrM]
      rw [reduceIter_stack_comm 2 (m :: s).length (by simp) ts hne hts]
      rw [Tensor.components]
      congr 1
      apply List.map_congr_left
      intro u hu
      exact reduceIter_collapse (m :: s).length u (hts u hu).1 (hts u hu).2 (by simp)

theorem norm_on_batch_spec_witness :
    Tensor.wfb sampleBatch = true ∧
    Tensor.shape sampleBatch = [1, 2] ∧
    Tensor.shape (norm_on_batch sampleBatch 2) = [1] ∧
    norm_on_batch sampleBatch 2 = Tensor.stack [Tensor.scalar (Real.sqrt 25)] ∧
    Real.sqrt 25 = 5 := by
  have hwf : Tensor.wfb sampleBatch = true := by
    simp [sampleBatch, Tensor.wfb, wfbList, sameShape, Tensor.shape, shapeHead]
  have hs : Tensor.shape sampleBatch = [1, 2] := by
    simp [sampleBatch, Tensor.shape, shapeHead]
  have h := norm_on_batch_spec 2 sampleBatch 1 2 [] hwf hs
  refine ⟨hwf, hs, h.1, ?_, ?_⟩
  · rw [h.2]
    have hc : Tensor.sumSq (Tensor.stack [Tensor.scalar 3, Tensor.scalar 4]) = 25 := by
      rw [Tensor.sumSq, sumSqList, sumSqList, sumSqList, Tensor.sumSq, Tensor.sumSq]
      norm_num
    simp [sampleBatch, Tensor.components, hc]
  · rw [show (25 : ℝ) = 5 ^ 2 by norm_num]
    exact Real.sqrt_sq (by norm_num)
